import Mathlib

/-!
Verification of the JOS kernel monitor (`kern/monitor.c`).

The monitor is a command-driven REPL over a paused kernel: it tokenizes an
input line, dispatches on a fixed command table, and runs handlers that
inspect or mutate page-table entries, dump memory words, walk the stack via
saved frame pointers, and resume a paused execution context.

The embedding below translates `kern/monitor.c` function by function.
External collaborators that are not part of the repository snapshot
(the page-table walker `pgdir_walk` from `kern/pmap.c`, the numeric parser
`strtol` from the C library, the symbol resolver `debuginfo_eip`, the
scheduler `env_run`, line input `readline`, and the constants from the
`inc/` headers) are modelled from the specification's description of their
call contracts: console output becomes a list of events, `env_run` becomes
a non-returning handoff result, `readline` becomes a list of optional input
lines, and `debuginfo_eip` becomes a function parameter carried in the
system state.
-/

namespace Jos

/-- Modelled from the spec: the kernel/user split boundary, from the JOS
header `inc/memlayout.h` (not under `src/`); standard JOS value. -/
def KERNBASE : Nat := 0xF0000000

/-- Modelled from the spec: page size, from `inc/mmu.h` (not under `src/`). -/
def PGSIZE : Nat := 4096

/-- Page-table entry flag bits, from `inc/mmu.h` (not under `src/`);
standard x86 values. -/
def PTE_P : Nat := 0x001
def PTE_W : Nat := 0x002
def PTE_U : Nat := 0x004
def PTE_PWT : Nat := 0x008
def PTE_PCD : Nat := 0x010
def PTE_A : Nat := 0x020
def PTE_D : Nat := 0x040
def PTE_PS : Nat := 0x080
def PTE_G : Nat := 0x100

/-- Trap numbers for breakpoint and debug (single-step) traps, from
`inc/trap.h` (not under `src/`); standard x86 vectors. -/
def T_DEBUG : Nat := 1
def T_BRKPT : Nat := 3

/-- The x86 EFLAGS trap (single-step) flag bit, from `inc/mmu.h`. -/
def FL_TF : Nat := 0x100

/-- `PTE_ADDR(pte)` from `inc/mmu.h`: the physical frame-address bits of an
entry, `pte & ~0xFFF` on a 32-bit word. -/
def PTE_ADDR (pte : Nat) : Nat := pte &&& 0xFFFFF000

/-- `PGNUM(la)` from `inc/mmu.h`: the page number of an address. -/
def PGNUM (la : Nat) : Nat := la >>> 12

/-- `ROUNDDOWN(a, n)` from `inc/types.h`: `a - a % n`. -/
def ROUNDDOWN (a n : Nat) : Nat := a - a % n

/-- `KADDR(pa)` from `kern/pmap.h` (not under `src/`): modelled from the
spec as the physical-to-virtual translation into the kernel's addressable
window, `pa + KERNBASE`. -/
def KADDR (pa : Nat) : Nat := pa + KERNBASE

/-- One slot of the `argv` array built by `runcmd`: either a token string,
the trailing null marker (`argv[argc] = 0`), or an uninitialized slot. -/
inductive Slot where
  | token (s : String)
  | nullMark
  | unset
deriving DecidableEq

/-- Hexadecimal/decimal/octal digit value of a character for a given base. -/
def digitVal (base : Nat) (c : Char) : Option Nat :=
  let v :=
    if 48 ≤ c.toNat ∧ c.toNat ≤ 57 then some (c.toNat - 48)
    else if 97 ≤ c.toNat ∧ c.toNat ≤ 102 then some (c.toNat - 87)
    else if 65 ≤ c.toNat ∧ c.toNat ≤ 70 then some (c.toNat - 55)
    else none
  match v with
  | some d => if d < base then some d else none
  | none => none

/-- Accumulate digits until the first character that is not a digit of the
base; the C `strtol` stops there. -/
def parseDigits (base : Nat) : List Char → Nat → Nat
  | [], acc => acc
  | c :: rest, acc =>
    match digitVal base c with
    | some d => parseDigits base rest (acc * base + d)
    | none => acc

/-- Modelled from the spec: the numeric parser (`strtol` from the C library,
not under `src/`): base auto-detect — a `0x` prefix selects base 16, a
leading `0` selects base 8, otherwise base 10; malformed numeric text
yields zero rather than an error. -/
def strtol (s : String) : Nat :=
  match s.data with
  | '0' :: 'x' :: rest => parseDigits 16 rest 0
  | '0' :: 'X' :: rest => parseDigits 16 rest 0
  | '0' :: rest => parseDigits 8 rest 0
  | cs => parseDigits 10 cs 0

/-- Applying the numeric parser to an `argv` slot.  Passing the null
terminator slot or an uninitialized slot to `strtol` dereferences a null or
wild pointer: undefined behavior, modelled as `none`. -/
def parseSlot : Slot → Option Nat
  | .token s => some (strtol s)
  | .nullMark => none
  | .unset => none

/-- `struct Eipdebuginfo` from `kern/kdebug.h`: the symbol resolver's
answer for an instruction address. -/
structure Eipdebuginfo where
  eip_file : String
  eip_line : Nat
  eip_fn_name : String
  eip_fn_namelen : Nat
  eip_fn_addr : Nat
deriving DecidableEq

/-- `struct Trapframe` (from `inc/trap.h`): the paused execution context.
The general-register snapshot is kept abstract as a list of words; the
monitor code only ever touches `tf_trapno`, `tf_eip` and `tf_eflags`. -/
structure Trapframe where
  tf_regs : List Nat
  tf_trapno : Nat
  tf_esp : Nat
  tf_eip : Nat
  tf_eflags : Nat
deriving DecidableEq

/-- One unit of console output (`cprintf`), abstracted by content. -/
inductive Event where
  | err (msg : String)
  | unknownCmd (name : String)
  | helpLine (name desc : String)
  | banner (msg : String)
  | row (pn : Nat) (status : String) (framePn : Nat)
  | dumpLine (addr w0 w1 w2 w3 : Nat)
  | btFrame (ebp eip a1 a2 a3 a4 a5 : Nat)
  | symLine (eip : Nat) (info : Eipdebuginfo)
deriving DecidableEq

/-- The kernel page table reachable from `kern_pgdir`, as a partial map
from page number to page-table entry; `none` means the entry does not
exist yet (its page table has not been allocated). -/
def PT : Type := Nat → Option Nat

/-- Modelled from the spec: the external page-table walker
(`pgdir_walk(kern_pgdir, va, true)` from `kern/pmap.c`, not under `src/`):
resolves the entry for a virtual address, creating it (zero-initialized)
if missing, and returns the resulting table together with the entry's
current value. -/
def pgdir_walk (pt : PT) (va : Nat) : PT × Nat :=
  match pt (PGNUM va) with
  | some e => (pt, e)
  | none => (fun pn => if pn = PGNUM va then some 0 else pt pn, 0)

/-- One character of the nine-character flag rendering: the flag's letter
if the bit is set in the entry, `'-'` otherwise. -/
def flagChar (e mask : Nat) (c : Char) : Char :=
  if e &&& mask = 0 then '-' else c

/-- The nine-character status string built by `mon_map` and `mon_set`:
`status[0..8]` test `PTE_G, PTE_PS, PTE_D, PTE_A, PTE_PCD, PTE_PWT, PTE_U,
PTE_W, PTE_P` in that order. -/
def renderStatus (e : Nat) : String :=
  ⟨[flagChar e PTE_G 'G', flagChar e PTE_PS 'S', flagChar e PTE_D 'D',
    flagChar e PTE_A 'A', flagChar e PTE_PCD 'C', flagChar e PTE_PWT 'T',
    flagChar e PTE_U 'U', flagChar e PTE_W 'W', flagChar e PTE_P 'P']⟩

/-- The loop of `mon_map`: `for (i = start; i < end; i += PGSIZE)`, walking
(and creating if missing) the entry for each page and printing one row
`[PGNUM(i)-PGNUM(i)+1] status PGNUM(*pgtable)`. -/
def mapLoop (pt : PT) (i e : Nat) : PT × List Event :=
  if h : i < e then
    let w := pgdir_walk pt i
    let r := mapLoop w.1 (i + PGSIZE) e
    (r.1, Event.row (PGNUM i) (renderStatus w.2) (PGNUM w.2) :: r.2)
  else (pt, [])
termination_by e - i
decreasing_by simp [PGSIZE]; omega

/-- Body of `mon_map` after parsing `argv[1]`/`argv[2]` into `start`/`end`:
reject `start > end` (the `start < 0` half of the C test is vacuous for an
unsigned `size_t`), else round `start` down to a page boundary and loop. -/
def mon_map_core (start e : Nat) (pt : PT) : PT × List Event :=
  if e < start then (pt, [Event.err "Invalid parameters[start, end]"])
  else mapLoop pt (ROUNDDOWN start PGSIZE) e

/-- Body of `mon_set` after parsing `argv[1]`/`argv[2]` into `page`/`flag`:
reject `page > KERNBASE` (again `page < 0` is vacuous), else round the page
down, walk (creating if missing) its entry, overwrite it with
`PTE_ADDR(*pgtable) | flag`, and print one status row for verification. -/
def mon_set_core (page flag : Nat) (pt : PT) : PT × List Event :=
  if KERNBASE < page then (pt, [Event.err "Invalid parameters[page]"])
  else
    let p := ROUNDDOWN page PGSIZE
    let w := pgdir_walk pt p
    let newE := PTE_ADDR w.2 ||| flag
    (fun pn => if pn = PGNUM p then some newE else w.1 pn,
     [Event.row (PGNUM p) (renderStatus newE) (PGNUM newE)])

/-- The shared dump loop of `mon_xp` and `mon_xv`:
`for (i = 0; i < length; i += 4, start += 16)`, each iteration printing one
line with the current address and the four 32-bit words read through `rd`
at `start, start+4, start+8, start+12`.  A read outside the readable
memory (`none`) is a faulting dereference, propagated as `none`. -/
def dumpLoop (rd : Nat → Option Nat) (start i len : Nat) : Option (List Event) :=
  if h : i < len then
    match rd start, rd (start + 4), rd (start + 8), rd (start + 12) with
    | some w0, some w1, some w2, some w3 =>
      match dumpLoop rd (start + 16) (i + 4) len with
      | some evs => some (Event.dumpLine start w0 w1 w2 w3 :: evs)
      | none => none
    | _, _, _, _ => none
  else some []
termination_by len - i
decreasing_by omega

/-- Body of `mon_xv` after parsing: dump `len` words from kernel-virtual
address `start`, dereferenced directly. -/
def mon_xv_core (start len : Nat) (mem : Nat → Option Nat) : Option (List Event) :=
  dumpLoop mem start 0 len

/-- Body of `mon_xp` after parsing: identical loop, but each word is read
through `KADDR` (the printed address stays the physical one). -/
def mon_xp_core (start len : Nat) (mem : Nat → Option Nat) : Option (List Event) :=
  dumpLoop (fun a => mem (KADDR a)) start 0 len

/-- The `do { ... } while (cur)` loop of `mon_backtrace`: print the frame
record (`ebp`, return address `cur[1]`, the five words `cur[2..6]`) and the
resolved symbol line for `cur[1]`, then load `cur = *cur` and repeat until
that saved frame pointer is zero.  The C loop has no depth bound; `fuel`
bounds the model, and exhausting it (a longer or cyclic chain) yields
`none`, as does any faulting memory read. -/
def btLoop (mem : Nat → Option Nat) (dbg : Nat → Eipdebuginfo) (cur : Nat) :
    Nat → Option (List Event)
  | 0 => none
  | fuel + 1 =>
    match mem (cur + 4), mem (cur + 8), mem (cur + 12), mem (cur + 16),
          mem (cur + 20), mem (cur + 24) with
    | some ra, some a1, some a2, some a3, some a4, some a5 =>
      match mem cur with
      | some nxt =>
        let evs := [Event.btFrame cur ra a1 a2 a3 a4 a5,
                    Event.symLine ra (dbg ra)]
        if nxt = 0 then some evs
        else
          match btLoop mem dbg nxt fuel with
          | some more => some (evs ++ more)
          | none => none
      | none => none
    | _, _, _, _, _, _ => none

/-- The ambient system state a handler can read or write: the kernel page
table, readable kernel-virtual memory, the external symbol resolver, the
current frame-pointer register (`read_ebp()`), and the step bound for the
unbounded backtrace loop. -/
structure Sys where
  pt : PT
  mem : Nat → Option Nat
  dbg : Nat → Eipdebuginfo
  ebp : Nat
  btFuel : Nat

/-- Result of a command handler or of `runcmd`: a returned status with its
console output and the (possibly updated) state, a non-returning handoff to
`env_run`, or undefined behavior (a wild dereference). -/
inductive RCRes where
  | ret (status : Int) (out : List Event) (s : Sys) (tf : Option Trapframe)
  | handoff (out : List Event) (s : Sys) (tf : Trapframe)
  | ub

/-- The fixed command table: name and one-line description, in the order of
the `commands[]` array. -/
def commandTable : List (String × String) :=
  [("help", "Display this list of commands"),
   ("kerninfo", "Display information about the kernel"),
   ("backtrace", "Display stack"),
   ("map", "Display mapping"),
   ("set", "Set mapping"),
   ("xp", "Dump physical memory"),
   ("xv", "Dump virtual memory"),
   ("c", "Continue process"),
   ("si", "Step")]

/-- `mon_help`: print every registered command with its description. -/
def mon_help (_argc : Nat) (_argv : Nat → Slot) (s : Sys) (tf : Option Trapframe) : RCRes :=
  .ret 0 (commandTable.map fun p => Event.helpLine p.1 p.2) s tf

/-- `mon_kerninfo`: prints the linker-provided kernel layout symbols and the
computed footprint; the values come from symbols outside `src/`, so the
output is abstracted to a banner. -/
def mon_kerninfo (_argc : Nat) (_argv : Nat → Slot) (s : Sys) (tf : Option Trapframe) : RCRes :=
  .ret 0 [Event.banner "Special kernel symbols"] s tf

/-- `mon_backtrace`: print the banner, then walk the saved-frame-pointer
chain from `read_ebp()`.  A chain that faults or does not reach a zero link
within the step bound is the fatal-fault case, modelled as `ub`. -/
def mon_backtrace (_argc : Nat) (_argv : Nat → Slot) (s : Sys) (tf : Option Trapframe) : RCRes :=
  match btLoop s.mem s.dbg s.ebp s.btFuel with
  | some evs => .ret 0 (Event.banner "Stack backtrace:" :: evs) s tf
  | none => .ub

/-- `mon_map`: parse `argv[1]`/`argv[2]` (no `argc` check in the code) and
run the inspect loop. -/
def mon_map (_argc : Nat) (argv : Nat → Slot) (s : Sys) (tf : Option Trapframe) : RCRes :=
  match parseSlot (argv 1), parseSlot (argv 2) with
  | some start, some e =>
    let r := mon_map_core start e s.pt
    .ret 0 r.2 { s with pt := r.1 } tf
  | _, _ => .ub

/-- `mon_set`: parse `argv[1]`/`argv[2]` (no `argc` check in the code) and
run the mutate body. -/
def mon_set (_argc : Nat) (argv : Nat → Slot) (s : Sys) (tf : Option Trapframe) : RCRes :=
  match parseSlot (argv 1), parseSlot (argv 2) with
  | some page, some flag =>
    let r := mon_set_core page flag s.pt
    .ret 0 r.2 { s with pt := r.1 } tf
  | _, _ => .ub

/-- `mon_xp`: parse `argv[1]`/`argv[2]` (no `argc` check) and dump physical
words; a faulting dereference is fatal (`ub`). -/
def mon_xp (_argc : Nat) (argv : Nat → Slot) (s : Sys) (tf : Option Trapframe) : RCRes :=
  match parseSlot (argv 1), parseSlot (argv 2) with
  | some start, some len =>
    match mon_xp_core start len s.mem with
    | some evs => .ret 0 evs s tf
    | none => .ub
  | _, _ => .ub

/-- `mon_xv`: parse `argv[1]`/`argv[2]` (no `argc` check) and dump virtual
words; a faulting dereference is fatal (`ub`). -/
def mon_xv (_argc : Nat) (argv : Nat → Slot) (s : Sys) (tf : Option Trapframe) : RCRes :=
  match parseSlot (argv 1), parseSlot (argv 2) with
  | some start, some len =>
    match mon_xv_core start len s.mem with
    | some evs => .ret 0 evs s tf
    | none => .ub
  | _, _ => .ub

/-- `mon_c`: reject (status `-1`, nothing touched) unless a paused context
is present with a breakpoint or single-step trap number; on success clear
the single-step flag (`tf->tf_eflags &= ~FL_TF`, i.e. `&&& 0xFFFFFEFF` on
the 32-bit flags word) and hand the context to `env_run`. -/
def mon_c (_argc : Nat) (_argv : Nat → Slot) (s : Sys) (tf : Option Trapframe) : RCRes :=
  match tf with
  | none => .ret (-1) [Event.err "Invalid Trapframe"] s none
  | some t =>
    if t.tf_trapno ≠ T_BRKPT ∧ t.tf_trapno ≠ T_DEBUG then
      .ret (-1) [Event.err "Invalid Trapframe"] s (some t)
    else
      .handoff [] s { t with tf_eflags := t.tf_eflags &&& 0xFFFFFEFF }

/-- `mon_si`: same precondition as `mon_c`; on success resolve and print the
symbol information for the paused instruction pointer, set the single-step
flag (`tf->tf_eflags |= FL_TF`), and hand off to `env_run`. -/
def mon_si (_argc : Nat) (_argv : Nat → Slot) (s : Sys) (tf : Option Trapframe) : RCRes :=
  match tf with
  | none => .ret (-1) [Event.err "Invalid Trapframe"] s none
  | some t =>
    if t.tf_trapno ≠ T_BRKPT ∧ t.tf_trapno ≠ T_DEBUG then
      .ret (-1) [Event.err "Invalid Trapframe"] s (some t)
    else
      .handoff [Event.symLine t.tf_eip (s.dbg t.tf_eip)] s
        { t with tf_eflags := t.tf_eflags ||| FL_TF }

/-- The `commands[]` registry: names, descriptions and handlers, in source
order.  The names and descriptions coincide with `commandTable`
(`commands_table_names` below). -/
def commands : List (String × String × (Nat → (Nat → Slot) → Sys → Option Trapframe → RCRes)) :=
  [("help", "Display this list of commands", mon_help),
   ("kerninfo", "Display information about the kernel", mon_kerninfo),
   ("backtrace", "Display stack", mon_backtrace),
   ("map", "Display mapping", mon_map),
   ("set", "Set mapping", mon_set),
   ("xp", "Dump physical memory", mon_xp),
   ("xv", "Dump virtual memory", mon_xv),
   ("c", "Continue process", mon_c),
   ("si", "Step", mon_si)]

theorem commands_table_names :
    commands.map (fun c => (c.1, c.2.1)) = commandTable := rfl

/-- Whitespace per the `WHITESPACE` define: tab, carriage return, newline,
space. -/
def isWS (c : Char) : Bool :=
  c == '\t' || c == '\r' || c == '\n' || c == ' '

/-- The tokenizing loop of `runcmd`.  Each round gobbles whitespace, stops
at the end of the buffer, errors if the token count would reach `MAXARGS`
(the check `argc == MAXARGS-1`; `k` counts the remaining free slots,
`MAXARGS - 1 - argc`), and otherwise scans past the next token.  The C code
terminates tokens in place inside the one line buffer; the model copies
each token out, which preserves the token strings. -/
def tokenizeAux (k : Nat) (cs : List Char) (acc : List String) : Option (List String) :=
  let cs' := cs.dropWhile isWS
  if cs' = [] then some acc.reverse
  else
    match k with
    | 0 => none
    | k + 1 =>
      tokenizeAux k (cs'.dropWhile fun c => !isWS c)
        (⟨cs'.takeWhile fun c => !isWS c⟩ :: acc)

/-- Tokenization of one input line: at most `MAXARGS - 1 = 15` tokens;
`none` is the "Too many arguments" error. -/
def tokenize (buf : String) : Option (List String) :=
  tokenizeAux 15 buf.data []

/-- The number of whitespace-separated tokens in a line, by a one-character
scanner (`inTok` records whether the scan is inside a token).  This is the
specification-side token count that `tokenize`'s cap is measured against. -/
def countTokensAux : List Char → Bool → Nat → Nat
  | [], _, n => n
  | c :: cs, true, n =>
    if isWS c then countTokensAux cs false n else countTokensAux cs true n
  | c :: cs, false, n =>
    if isWS c then countTokensAux cs false n else countTokensAux cs true (n + 1)

/-- Token count of a line. -/
def countTokens (cs : List Char) : Nat := countTokensAux cs false 0

/-- The `argv` array as `runcmd` builds it: token pointers at indices below
`argc`, the null terminator at index `argc`, uninitialized stack slots
beyond. -/
def argSlot (args : List String) (i : Nat) : Slot :=
  if h : i < args.length then .token (args.get ⟨i, h⟩)
  else if i = args.length then .nullMark
  else .unset

/-- `runcmd`: tokenize the line (reporting "Too many arguments" and
continuing on overflow), do nothing on an empty line, then linearly scan
the registry for the first token and invoke the matching handler; an
unknown command is reported and the loop continues. -/
def runcmd (buf : String) (s : Sys) (tf : Option Trapframe) : RCRes :=
  match tokenize buf with
  | none => .ret 0 [Event.err "Too many arguments (max 16)"] s tf
  | some [] => .ret 0 [] s tf
  | some (a0 :: rest) =>
    match commands.find? (fun c => c.1 == a0) with
    | some c => c.2.2 (a0 :: rest).length (argSlot (a0 :: rest)) s tf
    | none => .ret 0 [Event.unknownCmd a0] s tf

/-- How a run of the monitor loop over a finite list of input lines ends:
it terminated (a handler returned a negative status and the `while (1)`
loop broke), it consumed every provided line and would block reading the
next (`exhausted`), control was handed off to `env_run`, or undefined
behavior was reached. -/
inductive LoopEnd where
  | terminated
  | exhausted
  | handedOff (tf : Trapframe)
  | ub
deriving DecidableEq

/-- The `while (1)` loop of `monitor()`, run over a list of `readline`
results (`none` models `readline` returning `NULL`).  Returns how many
lines were consumed and how the run ended.  The banner printed before the
loop and `print_trapframe` are output-only and omitted.  Note the code
skips a `NULL` line and reads again — it does not break. -/
def monitor (s : Sys) (tf : Option Trapframe) : List (Option String) → Nat × LoopEnd
  | [] => (0, .exhausted)
  | none :: rest =>
    let r := monitor s tf rest
    (r.1 + 1, r.2)
  | some buf :: rest =>
    match runcmd buf s tf with
    | .ret st _ s' tf' =>
      if st < 0 then (1, .terminated)
      else
        let r := monitor s' tf' rest
        (r.1 + 1, r.2)
    | .handoff _ _ t' => (1, .handedOff t')
    | .ub => (1, .ub)

/-! ### Bitwise helper lemmas -/

theorem land_lor_right (a b m : Nat) : (a ||| b) &&& m = (a &&& m) ||| (b &&& m) := by
  apply Nat.eq_of_testBit_eq
  intro i
  simp [Nat.testBit_land, Nat.testBit_lor, Bool.and_or_distrib_right]

/-- The frame-address bits of an entry contribute nothing under a low mask. -/
theorem frame_clears_low (e flag m : Nat) (h : 0xFFFFF000 &&& m = 0) :
    ((e &&& 0xFFFFF000) ||| flag) &&& m = flag &&& m := by
  rw [land_lor_right, Nat.land_assoc, h]
  simp

theorem flagChar_or (e flag m : Nat) (c : Char) (h : 0xFFFFF000 &&& m = 0) :
    flagChar ((e &&& 0xFFFFF000) ||| flag) m c = flagChar flag m c := by
  unfold flagChar
  rw [frame_clears_low e flag m h]

/-- The nine-character rendering of `PTE_ADDR e ||| flag` depends only on
`flag`: every rendered mask lies in the low twelve bits. -/
theorem renderStatus_or (e flag : Nat) :
    renderStatus ((e &&& 0xFFFFF000) ||| flag) = renderStatus flag := by
  unfold renderStatus
  rw [flagChar_or e flag PTE_G 'G' (by decide), flagChar_or e flag PTE_PS 'S' (by decide),
    flagChar_or e flag PTE_D 'D' (by decide), flagChar_or e flag PTE_A 'A' (by decide),
    flagChar_or e flag PTE_PCD 'C' (by decide), flagChar_or e flag PTE_PWT 'T' (by decide),
    flagChar_or e flag PTE_U 'U' (by decide), flagChar_or e flag PTE_W 'W' (by decide),
    flagChar_or e flag PTE_P 'P' (by decide)]

theorem low_and_high_zero (flag : Nat) (h : flag < 4096) : flag &&& 0xFFFFF000 = 0 := by
  apply Nat.eq_of_testBit_eq
  intro i
  rcases Nat.lt_or_ge i 12 with hi | hi
  · rw [Nat.testBit_land]
    have hm : (0xFFFFF000 : Nat).testBit i = false := by interval_cases i <;> decide
    simp [hm]
  · rw [Nat.testBit_land]
    have hf : flag.testBit i = false := by
      apply Nat.testBit_lt_two_pow
      calc flag < 4096 := h
        _ = 2 ^ 12 := by norm_num
        _ ≤ 2 ^ i := Nat.pow_le_pow_right (by norm_num) hi
    simp [hf]

/-- For a flags value fitting in the twelve flag bits, the written entry's
flag bits are exactly that value. -/
theorem newE_low (e flag : Nat) (h : flag < 4096) :
    ((e &&& 0xFFFFF000) ||| flag) &&& 0xFFF = flag := by
  rw [frame_clears_low e flag 0xFFF (by decide),
    show (0xFFF : Nat) = 2 ^ 12 - 1 by norm_num]
  exact Nat.and_pow_two_sub_one_of_lt_two_pow h

/-- For a flags value fitting in the twelve flag bits, the written entry's
frame-address bits are those of the old entry. -/
theorem newE_frame (e flag : Nat) (h : flag < 4096) :
    ((e &&& 0xFFFFF000) ||| flag) &&& 0xFFFFF000 = e &&& 0xFFFFF000 := by
  rw [land_lor_right, low_and_high_zero flag h, Nat.land_assoc,
    show (0xFFFFF000 : Nat) &&& 0xFFFFF000 = 0xFFFFF000 by decide]
  simp

theorem clear_tf_bit8 (x : Nat) : (x &&& 0xFFFFFEFF).testBit 8 = false := by
  have h : (0xFFFFFEFF : Nat).testBit 8 = false := by decide
  rw [Nat.testBit_land, h, Bool.and_false]

theorem clear_tf_other (x i : Nat) (h32 : i < 32) (h8 : i ≠ 8) :
    (x &&& 0xFFFFFEFF).testBit i = x.testBit i := by
  rw [Nat.testBit_land]
  have hm : (0xFFFFFEFF : Nat).testBit i = true := by
    interval_cases i <;> simp_all <;> decide
  rw [hm, Bool.and_true]

theorem set_tf_bit8 (x : Nat) : (x ||| FL_TF).testBit 8 = true := by
  have h : (FL_TF : Nat).testBit 8 = true := by decide
  rw [Nat.testBit_lor, h, Bool.or_true]

theorem set_tf_other (x i : Nat) (h8 : i ≠ 8) : (x ||| FL_TF).testBit i = x.testBit i := by
  rw [Nat.testBit_lor]
  have hm : (FL_TF : Nat).testBit i = false := by
    rw [show (FL_TF : Nat) = 2 ^ 8 by norm_num [FL_TF]]
    exact Nat.testBit_two_pow_of_ne (fun hh => h8 hh.symm)
  rw [hm, Bool.or_false]

/-! ### Unfolding lemmas for the page-table loops -/

theorem mapLoop_stop (pt : PT) (i e : Nat) (h : ¬ i < e) : mapLoop pt i e = (pt, []) := by
  rw [mapLoop]
  simp [h]

theorem mapLoop_one (pt : PT) (i e v : Nat) (h1 : i < e) (h2 : e ≤ i + PGSIZE)
    (hv : pt (PGNUM i) = some v) :
    mapLoop pt i e = (pt, [Event.row (PGNUM i) (renderStatus v) (PGNUM v)]) := by
  have hw : pgdir_walk pt i = (pt, v) := by
    unfold pgdir_walk
    rw [hv]
  rw [mapLoop]
  simp only [h1, dite_true, hw, mapLoop_stop pt (i + PGSIZE) e (by omega)]

/-! ### Closed form of the dump loop over total memory -/

/-- The lines the dump loop prints for a given word-reader `f`: one line
per iteration, line `j` at address `start + 16*j` holding the four words at
`+0, +4, +8, +12`. -/
def expectedDump (f : Nat → Nat) (start len : Nat) : List Event :=
  (List.range ((len + 3) / 4)).map fun j =>
    Event.dumpLine (start + 16 * j) (f (start + 16 * j)) (f (start + 16 * j + 4))
      (f (start + 16 * j + 8)) (f (start + 16 * j + 12))

theorem dumpLoop_total (f : Nat → Nat) :
    ∀ n start i len, len - i ≤ n →
      dumpLoop (fun a => some (f a)) start i len =
        some ((List.range ((len - i + 3) / 4)).map fun j =>
          Event.dumpLine (start + 16 * j) (f (start + 16 * j)) (f (start + 16 * j + 4))
            (f (start + 16 * j + 8)) (f (start + 16 * j + 12))) := by
  intro n
  induction n with
  | zero =>
    intro start i len h
    have hz : len - i = 0 := by omega
    rw [dumpLoop]
    simp [show ¬ i < len by omega, hz]
  | succ n ih =>
    intro start i len h
    by_cases hlt : i < len
    · rw [dumpLoop]
      simp only [hlt, dite_true]
      rw [ih (start + 16) (i + 4) len (by omega)]
      have harith : (len - i + 3) / 4 = (len - (i + 4) + 3) / 4 + 1 := by omega
      rw [harith, List.range_succ_eq_map, List.map_cons, List.map_map]
      refine congrArg some ?_
      refine congrArg₂ List.cons ?_ ?_
      · norm_num
      · apply List.map_congr_left
        intro j _
        simp only [Function.comp_apply, Nat.succ_eq_add_one]
        have e1 : start + 16 * (j + 1) = start + 16 + 16 * j := by ring
        rw [e1]
    · rw [dumpLoop]
      simp [hlt, show len - i = 0 by omega]

/-- The flat list of words printed by a list of dump lines, four per line. -/
def wordsOf : List Event → List Nat
  | [] => []
  | Event.dumpLine _ w0 w1 w2 w3 :: rest => w0 :: w1 :: w2 :: w3 :: wordsOf rest
  | _ :: rest => wordsOf rest

theorem wordsOf_append (a b : List Event) : wordsOf (a ++ b) = wordsOf a ++ wordsOf b := by
  induction a with
  | nil => rfl
  | cons x rest ih =>
    cases x <;> simp [wordsOf, ih]

/-- Flattening the expected dump: the `k`-th printed word is the word read
at `start + 4*k`. -/
theorem wordsOf_expectedDump (f : Nat → Nat) (start len : Nat) :
    wordsOf (expectedDump f start len) =
      (List.range (4 * ((len + 3) / 4))).map fun k => f (start + 4 * k) := by
  unfold expectedDump
  generalize (len + 3) / 4 = n
  induction n with
  | zero => rfl
  | succ n ih =>
    rw [List.range_succ, List.map_append, wordsOf_append, ih]
    have h4 : 4 * (n + 1) = 4 * n + 1 + 1 + 1 + 1 := by ring
    rw [h4, List.range_succ, List.range_succ, List.range_succ, List.range_succ]
    simp only [List.map_append, List.map_cons, List.map_nil, List.append_assoc]
    congr 1
    simp only [wordsOf, List.map_cons, List.map_nil, List.singleton_append,
      List.cons_append, List.nil_append, List.cons.injEq, and_true]
    refine ⟨congrArg f (by ring), congrArg f (by ring), congrArg f (by ring),
      congrArg f (by ring)⟩

/-! ### Tokenizer counting lemmas -/

theorem dropWhile_length_le {α : Type} (p : α → Bool) (l : List α) :
    (l.dropWhile p).length ≤ l.length := by
  induction l with
  | nil => simp [List.dropWhile]
  | cons a l ih =>
    rw [List.dropWhile_cons]
    by_cases h : p a
    · simp only [h, if_true, List.length_cons]
      omega
    · simp [h]

theorem dropWhile_head_not {α : Type} (p : α → Bool) :
    ∀ (l : List α) c t, l.dropWhile p = c :: t → p c = false := by
  intro l
  induction l with
  | nil => intro c t h; simp [List.dropWhile] at h
  | cons a l ih =>
    intro c t h
    rw [List.dropWhile_cons] at h
    by_cases ha : p a
    · exact ih c t (by simpa [ha] using h)
    · simp only [ha, if_false] at h
      cases h
      simpa using ha

/-- Skipping leading whitespace does not change the token count. -/
theorem countTokensAux_dropWS (cs : List Char) (n : Nat) :
    countTokensAux (cs.dropWhile isWS) false n = countTokensAux cs false n := by
  induction cs with
  | nil => rfl
  | cons c cs ih =>
    rw [List.dropWhile_cons]
    by_cases h : isWS c
    · rw [if_pos h, ih]
      simp [countTokensAux, h]
    · rw [if_neg h]

/-- Inside a token, the rest of the count equals the count after skipping
to the end of the token. -/
theorem countTokensAux_inTok (cs : List Char) (n : Nat) :
    countTokensAux cs true n = countTokensAux (cs.dropWhile fun c => !isWS c) false n := by
  induction cs with
  | nil => rfl
  | cons c cs ih =>
    rw [List.dropWhile_cons]
    by_cases h : isWS c
    · simp [countTokensAux, h]
    · simp only [h, Bool.not_false, if_true, Bool.not_eq_true']
      rw [← ih]
      simp [countTokensAux, h]

theorem countTokensAux_add (cs : List Char) :
    ∀ b n, countTokensAux cs b n = n + countTokensAux cs b 0 := by
  induction cs with
  | nil => intro b n; rfl
  | cons c cs ih =>
    intro b n
    cases b with
    | true =>
      simp only [countTokensAux]
      by_cases h : isWS c
      · rw [if_pos h, if_pos h]
        exact ih false n
      · rw [if_neg h, if_neg h]
        exact ih true n
    | false =>
      simp only [countTokensAux]
      by_cases h : isWS c
      · rw [if_pos h, if_pos h]
        exact ih false n
      · rw [if_neg h, if_neg h]
        rw [ih true (n + 1), ih true 1]
        omega

/-- If the remaining free slots are fewer than the remaining tokens, the
tokenizing loop reports the overflow error. -/
theorem tokenizeAux_overflow :
    ∀ bound cs, cs.length ≤ bound → ∀ k (acc : List String), k < countTokens cs →
      tokenizeAux k cs acc = none := by
  intro bound
  induction bound with
  | zero =>
    intro cs hlen k acc hk
    have : cs = [] := by
      cases cs with
      | nil => rfl
      | cons a l => simp at hlen
    subst this
    simp [countTokens, countTokensAux] at hk
  | succ bound ih =>
    intro cs hlen k acc hk
    rw [tokenizeAux.eq_def]
    by_cases hcs : cs.dropWhile isWS = []
    · exfalso
      have h0 : countTokens cs = 0 := by
        unfold countTokens
        rw [← countTokensAux_dropWS, hcs]
        rfl
      omega
    · simp only [hcs, if_false]
      obtain ⟨c, rest, hrest⟩ : ∃ c rest, cs.dropWhile isWS = c :: rest := by
        cases h : cs.dropWhile isWS with
        | nil => exact absurd h hcs
        | cons c rest => exact ⟨c, rest, rfl⟩
      have hc : isWS c = false := dropWhile_head_not isWS cs c rest hrest
      have hcount : countTokens cs =
          1 + countTokens ((cs.dropWhile isWS).dropWhile fun x => !isWS x) := by
        unfold countTokens
        rw [← countTokensAux_dropWS, hrest]
        simp only [countTokensAux]
        rw [if_neg (by simp [hc]), countTokensAux_inTok, countTokensAux_add,
          List.dropWhile_cons, if_pos (by simp [hc])]
      cases k with
      | zero => rfl
      | succ k =>
        apply ih
        · have h1 : (cs.dropWhile isWS).length ≤ cs.length := dropWhile_length_le isWS cs
          rw [hrest] at h1
          simp only [List.length_cons] at h1
          have h2 : (rest.dropWhile fun x => !isWS x).length ≤ rest.length :=
            dropWhile_length_le _ rest
          have h3 : (cs.dropWhile isWS).dropWhile (fun x => !isWS x) =
              rest.dropWhile fun x => !isWS x := by
            rw [hrest, List.dropWhile_cons]
            simp [hc]
          rw [h3]
          omega
        · omega

/-- A line of sixteen or more tokens overflows the sixteen-slot argument
vector (one slot is reserved for the trailing null marker). -/
theorem tokenize_overflow (buf : String) (h : 16 ≤ countTokens buf.data) :
    tokenize buf = none := by
  unfold tokenize
  exact tokenizeAux_overflow buf.data.length buf.data (Nat.le_refl _) 15 [] (by omega)

/-! ### Concrete fixtures for witnesses and counterexamples -/

/-- An empty page table: no entry exists yet. -/
def pt0 : PT := fun _ => none

/-- A trivial symbol resolver. -/
def dbg0 : Nat → Eipdebuginfo := fun _ => ⟨"", 0, "", 0, 0⟩

/-- A bare system state. -/
def s0 : Sys := ⟨pt0, fun _ => none, dbg0, 0, 0⟩

/-- A page table holding one entry, for page number 5, with frame-address
bits `0x2000` and no flag bits. -/
def pt5 : PT := fun pn => if pn = 5 then some 0x2000 else none

/-! ### Claims -/

/-- C1, counterexample: at exactly the boundary address `KERNBASE`, the
`set` command does **not** report an error — it walks (creating) the entry
and writes it, printing a status row.  The code's test is `page > KERNBASE`
(strictly above), not "at or above": starting from an empty table, `set
KERNBASE 7` creates the boundary page's entry and sets it to `7`, and the
output is a status row rather than an error. -/
theorem claim1_cex :
    (mon_set_core KERNBASE 7 pt0).1 (PGNUM KERNBASE) = some 7 ∧
    (mon_set_core KERNBASE 7 pt0).2 =
      [Event.row (PGNUM KERNBASE) (renderStatus 7) (PGNUM 7)] ∧
    pt0 (PGNUM KERNBASE) = none := by
  refine ⟨?_, ?_, rfl⟩ <;> decide

/-- A `set` below or at the boundary writes `PTE_ADDR(old) | flag` into the
walked page's entry. -/
theorem mon_set_entry (page flag : Nat) (pt : PT) (h : page ≤ KERNBASE) :
    (mon_set_core page flag pt).1 (PGNUM (ROUNDDOWN page PGSIZE)) =
      some (PTE_ADDR (pgdir_walk pt (ROUNDDOWN page PGSIZE)).2 ||| flag) := by
  unfold mon_set_core
  rw [if_neg (by omega)]
  simp

/-- C1 (amended): the `set` command rejects an address strictly above the
kernel/user split boundary — reporting an error and leaving the page table
untouched — and proceeds with the mutation for every address at or below
the boundary (so `KERNBASE` itself is accepted). -/
theorem claim1_set_boundary (page flag : Nat) (pt : PT) :
    (KERNBASE < page →
      mon_set_core page flag pt = (pt, [Event.err "Invalid parameters[page]"])) ∧
    (page ≤ KERNBASE →
      (mon_set_core page flag pt).1 (PGNUM (ROUNDDOWN page PGSIZE)) =
        some (PTE_ADDR (pgdir_walk pt (ROUNDDOWN page PGSIZE)).2 ||| flag)) := by
  constructor
  · intro h
    unfold mon_set_core
    rw [if_pos h]
  · intro h
    exact mon_set_entry page flag pt h

/-- Witness for C1: `set` at `KERNBASE + 1` is rejected with the table
untouched; `set` at `0x1000` (below the boundary) writes the entry. -/
theorem claim1_set_boundary_witness :
    mon_set_core (KERNBASE + 1) 7 pt0 = (pt0, [Event.err "Invalid parameters[page]"]) ∧
    (mon_set_core 0x1000 7 pt0).1 (PGNUM (ROUNDDOWN 0x1000 PGSIZE)) =
      some (PTE_ADDR (pgdir_walk pt0 (ROUNDDOWN 0x1000 PGSIZE)).2 ||| 7) :=
  ⟨(claim1_set_boundary (KERNBASE + 1) 7 pt0).1 (by decide),
   (claim1_set_boundary 0x1000 7 pt0).2 (by decide)⟩

/-- C2, counterexample: with a flags argument of `0x1000` (bit 12, inside
the frame-address field) on a page whose entry is `0x2000`, the written
entry is `0x2000 ||| 0x1000 = 0x3000`: its flag bits are `0`, not the given
`0x1000`, and its frame-address bits moved from `0x2000` to `0x3000`.  The
claim's "every flags value" fails for flags values with bits at or above
bit 12, because `PTE_ADDR(*pgtable) | flag` does not mask `flag`. -/
theorem claim2_cex :
    (mon_set_core 0x5000 0x1000 pt5).1 (PGNUM 0x5000) = some 0x3000 ∧
    0x3000 &&& 0xFFF ≠ 0x1000 ∧
    PTE_ADDR 0x3000 ≠ PTE_ADDR 0x2000 ∧
    pt5 (PGNUM 0x5000) = some 0x2000 := by
  refine ⟨?_, ?_, ?_, rfl⟩ <;> decide

/-- C2 (amended): for every accepted page address and every flags value
**below `2^12`** (fitting the flag-bits field), `set` writes an entry whose
flag bits are exactly the given value and whose frame-address bits are
those of the entry the walk returned before the write, and a subsequent
`map` over that page prints one row whose status renders exactly the given
flag bits, without further table change. -/
theorem claim2_set_preserves_frame (page flag : Nat) (pt : PT)
    (hpage : page ≤ KERNBASE) (hflag : flag < 4096) :
    (mon_set_core page flag pt).1 (PGNUM (ROUNDDOWN page PGSIZE)) =
      some (PTE_ADDR (pgdir_walk pt (ROUNDDOWN page PGSIZE)).2 ||| flag) ∧
    (PTE_ADDR (pgdir_walk pt (ROUNDDOWN page PGSIZE)).2 ||| flag) &&& 0xFFF = flag ∧
    PTE_ADDR (PTE_ADDR (pgdir_walk pt (ROUNDDOWN page PGSIZE)).2 ||| flag) =
      PTE_ADDR (pgdir_walk pt (ROUNDDOWN page PGSIZE)).2 ∧
    mon_map_core (ROUNDDOWN page PGSIZE) (ROUNDDOWN page PGSIZE + PGSIZE)
        (mon_set_core page flag pt).1 =
      ((mon_set_core page flag pt).1,
       [Event.row (PGNUM (ROUNDDOWN page PGSIZE)) (renderStatus flag)
          (PGNUM (PTE_ADDR (pgdir_walk pt (ROUNDDOWN page PGSIZE)).2 ||| flag))]) := by
  have h1 := mon_set_entry page flag pt hpage
  refine ⟨h1, newE_low _ flag hflag, newE_frame _ flag hflag, ?_⟩
  unfold mon_map_core
  rw [if_neg (by simp [PGSIZE])]
  have hrd : ROUNDDOWN (ROUNDDOWN page PGSIZE) PGSIZE = ROUNDDOWN page PGSIZE := by
    unfold ROUNDDOWN PGSIZE
    omega
  rw [hrd, mapLoop_one _ _ _ _ (by simp [PGSIZE]) (le_refl _) h1]
  simp only [PTE_ADDR]
  rw [renderStatus_or]

/-- Witness for C2: `set 0x5000 6` on a table whose entry is `0x2000`
writes `0x2006`, whose flag bits are `6` and frame bits `0x2000`, and
`map` over that page then renders exactly the bits of `6`. -/
theorem claim2_witness :
    (mon_set_core 0x5000 6 pt5).1 (PGNUM (ROUNDDOWN 0x5000 PGSIZE)) =
      some (PTE_ADDR (pgdir_walk pt5 (ROUNDDOWN 0x5000 PGSIZE)).2 ||| 6) ∧
    (PTE_ADDR (pgdir_walk pt5 (ROUNDDOWN 0x5000 PGSIZE)).2 ||| 6) &&& 0xFFF = 6 ∧
    PTE_ADDR (PTE_ADDR (pgdir_walk pt5 (ROUNDDOWN 0x5000 PGSIZE)).2 ||| 6) =
      PTE_ADDR (pgdir_walk pt5 (ROUNDDOWN 0x5000 PGSIZE)).2 ∧
    mon_map_core (ROUNDDOWN 0x5000 PGSIZE) (ROUNDDOWN 0x5000 PGSIZE + PGSIZE)
        (mon_set_core 0x5000 6 pt5).1 =
      ((mon_set_core 0x5000 6 pt5).1,
       [Event.row (PGNUM (ROUNDDOWN 0x5000 PGSIZE)) (renderStatus 6)
          (PGNUM (PTE_ADDR (pgdir_walk pt5 (ROUNDDOWN 0x5000 PGSIZE)).2 ||| 6))]) :=
  claim2_set_preserves_frame 0x5000 6 pt5 (by decide) (by decide)

/-- In an absent or non-breakpoint/non-single-step context, `mon_c` prints
the error and returns `-1` without touching the context. -/
theorem mon_c_invalid (argc : Nat) (argv : Nat → Slot) (s : Sys) (tf : Option Trapframe)
    (hinv : tf = none ∨ ∃ t, tf = some t ∧ t.tf_trapno ≠ T_BRKPT ∧ t.tf_trapno ≠ T_DEBUG) :
    mon_c argc argv s tf = .ret (-1) [Event.err "Invalid Trapframe"] s tf := by
  rcases hinv with rfl | ⟨t, rfl, h1, h2⟩
  · rfl
  · simp [mon_c, h1, h2]

/-- Same rejection for `mon_si`. -/
theorem mon_si_invalid (argc : Nat) (argv : Nat → Slot) (s : Sys) (tf : Option Trapframe)
    (hinv : tf = none ∨ ∃ t, tf = some t ∧ t.tf_trapno ≠ T_BRKPT ∧ t.tf_trapno ≠ T_DEBUG) :
    mon_si argc argv s tf = .ret (-1) [Event.err "Invalid Trapframe"] s tf := by
  rcases hinv with rfl | ⟨t, rfl, h1, h2⟩
  · rfl
  · simp [mon_si, h1, h2]

/-- C3: with an absent paused context, or one whose trap number is neither
the breakpoint nor the single-step (debug) trap, both `c` and `si` print
the error, leave the context (and all state) unchanged, and return the
negative status `-1`; dispatched through the monitor loop, such a `c` or
`si` line terminates the loop — no further input line is read. -/
theorem claim3_resume_invalid (argc : Nat) (argv : Nat → Slot) (s : Sys)
    (tf : Option Trapframe) (rest : List (Option String))
    (hinv : tf = none ∨ ∃ t, tf = some t ∧ t.tf_trapno ≠ T_BRKPT ∧ t.tf_trapno ≠ T_DEBUG) :
    mon_c argc argv s tf = .ret (-1) [Event.err "Invalid Trapframe"] s tf ∧
    mon_si argc argv s tf = .ret (-1) [Event.err "Invalid Trapframe"] s tf ∧
    monitor s tf (some "c" :: rest) = (1, .terminated) ∧
    monitor s tf (some "si" :: rest) = (1, .terminated) := by
  refine ⟨mon_c_invalid argc argv s tf hinv, mon_si_invalid argc argv s tf hinv, ?_, ?_⟩
  · have hrun : runcmd "c" s tf = mon_c 1 (argSlot ["c"]) s tf := rfl
    simp only [monitor]
    rw [hrun, mon_c_invalid 1 (argSlot ["c"]) s tf hinv]
    norm_num
  · have hrun : runcmd "si" s tf = mon_si 1 (argSlot ["si"]) s tf := rfl
    simp only [monitor]
    rw [hrun, mon_si_invalid 1 (argSlot ["si"]) s tf hinv]
    norm_num

/-- Witness for C3: `c` and `si` with no paused context at all. -/
theorem claim3_witness :
    mon_c 0 (fun _ => Slot.unset) s0 none = .ret (-1) [Event.err "Invalid Trapframe"] s0 none ∧
    mon_si 0 (fun _ => Slot.unset) s0 none = .ret (-1) [Event.err "Invalid Trapframe"] s0 none ∧
    monitor s0 none [some "c"] = (1, .terminated) ∧
    monitor s0 none [some "si"] = (1, .terminated) :=
  claim3_resume_invalid 0 (fun _ => Slot.unset) s0 none [] (Or.inl rfl)

/-- C4, counterexample: the claim says the loop transitions to TERMINATE on
end-of-input from line acquisition, but the code merely skips a `NULL`
`readline` result and prompts again: after one `none` line the loop
consumes a following `help` line (two lines consumed in total), so no
TERMINATE transition happened at the end-of-input. -/
theorem claim4_cex :
    monitor s0 none [none, some "help"] = (2, LoopEnd.exhausted) ∧
    (2, LoopEnd.exhausted) ≠ (1, LoopEnd.terminated) := by
  constructor <;> decide

/-- C4 (amended): the monitor loop terminates exactly when a command
handler returns a negative status; a `NULL` line from line acquisition
does not terminate it — the loop returns to READ-LINE (consuming the next
line, with the same eventual outcome), and a handler status `≥ 0` likewise
sends it back to READ-LINE. -/
theorem claim4_loop_termination (s : Sys) (tf : Option Trapframe) (buf : String)
    (rest : List (Option String)) (st : Int) (out : List Event) (s' : Sys)
    (tf' : Option Trapframe) (hr : runcmd buf s tf = .ret st out s' tf') :
    monitor s tf (none :: rest) =
      ((monitor s tf rest).1 + 1, (monitor s tf rest).2) ∧
    (st < 0 → monitor s tf (some buf :: rest) = (1, .terminated)) ∧
    (0 ≤ st → monitor s tf (some buf :: rest) =
      ((monitor s' tf' rest).1 + 1, (monitor s' tf' rest).2)) := by
  refine ⟨rfl, ?_, ?_⟩
  · intro hst
    simp only [monitor]
    rw [hr]
    simp [hst]
  · intro hst
    simp only [monitor]
    rw [hr]
    simp [show ¬ st < 0 by omega]

/-- Witness for C4: the `help` handler returns status `0`, so the loop goes
back to READ-LINE. -/
theorem claim4_witness :
    monitor s0 none [none] = ((monitor s0 none []).1 + 1, (monitor s0 none []).2) ∧
    ((0 : Int) < 0 → monitor s0 none [some "help"] = (1, .terminated)) ∧
    ((0 : Int) ≤ 0 → monitor s0 none [some "help"] =
      ((monitor s0 none []).1 + 1, (monitor s0 none []).2)) :=
  claim4_loop_termination s0 none "help" [] 0
    (commandTable.map fun p => Event.helpLine p.1 p.2) s0 none (by rfl)

/-- C5, counterexample: `xv` with `length = 1` prints one full line of four
words — four words, not exactly one.  The loop steps `i` by 4 per line, so
the word count is `length` rounded up to a multiple of four. -/
theorem claim5_cex :
    mon_xv_core 0 1 (fun _ => some 0) = some [Event.dumpLine 0 0 0 0 0] ∧
    (wordsOf [Event.dumpLine 0 0 0 0 0]).length = 4 ∧ (4 : Nat) ≠ 1 := by
  refine ⟨?_, by decide, by decide⟩
  have h := dumpLoop_total (fun _ => 0) 1 0 0 1 (by omega)
  unfold mon_xv_core
  simpa using h

/-- C5 (amended): over readable memory, `xv` and `xp` print
`⌈length/4⌉` lines of four words each — `4*⌈length/4⌉` words in total,
which equals `length` only when `length` is a multiple of four — with the
line address advancing by 16 bytes per line and the `k`-th printed word
read from `start + 4*k` (through the physical window `KADDR` for `xp`,
which prints the physical address); with `length = 4` this is exactly one
line of four words. -/
theorem claim5_dump_shape (f : Nat → Nat) (start len : Nat) :
    mon_xv_core start len (fun a => some (f a)) = some (expectedDump f start len) ∧
    mon_xp_core start len (fun a => some (f a)) =
      some (expectedDump (fun a => f (KADDR a)) start len) ∧
    (expectedDump f start len).length = (len + 3) / 4 ∧
    wordsOf (expectedDump f start len) =
      (List.range (4 * ((len + 3) / 4))).map (fun k => f (start + 4 * k)) := by
  refine ⟨?_, ?_, ?_, wordsOf_expectedDump f start len⟩
  · have h := dumpLoop_total f len start 0 len (Nat.le_refl _)
    unfold mon_xv_core
    simpa [expectedDump] using h
  · have h := dumpLoop_total (fun a => f (KADDR a)) len start 0 len (Nat.le_refl _)
    unfold mon_xp_core
    simpa [expectedDump] using h
  · simp [expectedDump]

/-- C6: `map` with `start > end` reports the error, touches no entry, and
the handler's status is the continue status `0`; with page-aligned
`start = end` it prints no rows and creates no entries, because the loop
covers only `[start, end)`. -/
theorem claim6_map_range_check (start e : Nat) (pt : PT)
    (h : e < start ∨ (start = e ∧ start % PGSIZE = 0)) :
    mon_map_core start e pt =
      (pt, if e < start then [Event.err "Invalid parameters[start, end]"] else []) := by
  rcases h with h | ⟨rfl, ha⟩
  · unfold mon_map_core
    rw [if_pos h, if_pos h]
  · unfold mon_map_core
    rw [if_neg (lt_irrefl start), if_neg (lt_irrefl start)]
    have hrd : ROUNDDOWN start PGSIZE = start := by
      unfold ROUNDDOWN
      omega
    rw [hrd, mapLoop_stop pt start start (lt_irrefl start)]

/-- Witness for C6: `map 0x2000 0x1000` errors with no side effect and
`map 0x1000 0x1000` prints nothing and creates nothing. -/
theorem claim6_witness :
    mon_map_core 0x2000 0x1000 pt0 =
      (pt0, if 0x1000 < 0x2000 then [Event.err "Invalid parameters[start, end]"] else []) ∧
    mon_map_core 0x1000 0x1000 pt0 =
      (pt0, if 0x1000 < 0x1000 then [Event.err "Invalid parameters[start, end]"] else []) :=
  ⟨claim6_map_range_check 0x2000 0x1000 pt0 (Or.inl (by decide)),
   claim6_map_range_check 0x1000 0x1000 pt0 (Or.inr ⟨rfl, by decide⟩)⟩

/-- C7: on a valid paused context (breakpoint or single-step trap number),
`c` clears the single-step flag bit (bit 8, `FL_TF`) of the context's
flags word — leaving every other flag bit of the 32-bit word unchanged —
and hands the context to the execution-environment runner; `si` resolves
and prints the symbol information for the context's instruction pointer,
sets the single-step flag bit — leaving every other bit unchanged — and
hands off identically. -/
theorem claim7_resume_controls (argc : Nat) (argv : Nat → Slot) (s : Sys) (t : Trapframe)
    (hv : t.tf_trapno = T_BRKPT ∨ t.tf_trapno = T_DEBUG) :
    mon_c argc argv s (some t) =
      .handoff [] s { t with tf_eflags := t.tf_eflags &&& 0xFFFFFEFF } ∧
    (t.tf_eflags &&& 0xFFFFFEFF).testBit 8 = false ∧
    (∀ i, i < 32 → i ≠ 8 →
      (t.tf_eflags &&& 0xFFFFFEFF).testBit i = t.tf_eflags.testBit i) ∧
    mon_si argc argv s (some t) =
      .handoff [Event.symLine t.tf_eip (s.dbg t.tf_eip)] s
        { t with tf_eflags := t.tf_eflags ||| FL_TF } ∧
    (t.tf_eflags ||| FL_TF).testBit 8 = true ∧
    (∀ i, i ≠ 8 → (t.tf_eflags ||| FL_TF).testBit i = t.tf_eflags.testBit i) := by
  have hcond : ¬ (t.tf_trapno ≠ T_BRKPT ∧ t.tf_trapno ≠ T_DEBUG) := by
    rcases hv with h | h <;> simp [h]
  refine ⟨?_, clear_tf_bit8 _, fun i h32 h8 => clear_tf_other _ i h32 h8, ?_,
    set_tf_bit8 _, fun i h8 => set_tf_other _ i h8⟩
  · simp [mon_c, hcond]
  · simp [mon_si, hcond]

/-- A valid paused context: breakpoint trap, step flag set in the flags. -/
def t0 : Trapframe := ⟨[1, 2], T_BRKPT, 0x1000, 0x800042, 0x346⟩

/-- Witness for C7 at a concrete breakpoint context. -/
theorem claim7_witness :
    mon_c 0 (fun _ => Slot.unset) s0 (some t0) =
      .handoff [] s0 { t0 with tf_eflags := t0.tf_eflags &&& 0xFFFFFEFF } ∧
    (t0.tf_eflags &&& 0xFFFFFEFF).testBit 8 = false ∧
    mon_si 0 (fun _ => Slot.unset) s0 (some t0) =
      .handoff [Event.symLine t0.tf_eip (s0.dbg t0.tf_eip)] s0
        { t0 with tf_eflags := t0.tf_eflags ||| FL_TF } ∧
    (t0.tf_eflags ||| FL_TF).testBit 8 = true := by
  obtain ⟨h1, h2, _, h4, h5, _⟩ :=
    claim7_resume_controls 0 (fun _ => Slot.unset) s0 t0 (Or.inl rfl)
  exact ⟨h1, h2, h4, h5⟩

/-- C8: for every input line of sixteen or more whitespace-separated
tokens (so that the count would exceed the fifteen usable slots of the
sixteen-slot vector, one slot being reserved for the trailing null
marker), tokenization fails, `runcmd` prints the error and returns the
continue status `0`, and no command handler is invoked (the state and
context pass through untouched). -/
theorem claim8_too_many_args (buf : String) (s : Sys) (tf : Option Trapframe)
    (h : 16 ≤ countTokens buf.data) :
    tokenize buf = none ∧
    runcmd buf s tf = .ret 0 [Event.err "Too many arguments (max 16)"] s tf := by
  have ht := tokenize_overflow buf h
  exact ⟨ht, by simp [runcmd, ht]⟩

/-- A line of 17 space-separated tokens. -/
def buf17 : String := "a a a a a a a a a a a a a a a a a"

/-- Witness for C8: the 17-token line is rejected with a continue status. -/
theorem claim8_witness :
    16 ≤ countTokens buf17.data ∧
    runcmd buf17 s0 none = .ret 0 [Event.err "Too many arguments (max 16)"] s0 none :=
  ⟨by decide, (claim8_too_many_args buf17 s0 none (by decide)).2⟩

/-- One step of the backtrace loop on a frame whose saved frame pointer is
nonzero. -/
theorem btLoop_step (mem : Nat → Option Nat) (dbg : Nat → Eipdebuginfo)
    (cur nxt r b1 b2 b3 b4 b5 : Nat) (fuel : Nat)
    (h0 : mem cur = some nxt) (h1 : mem (cur + 4) = some r)
    (h2 : mem (cur + 8) = some b1) (h3 : mem (cur + 12) = some b2)
    (h4 : mem (cur + 16) = some b3) (h5 : mem (cur + 20) = some b4)
    (h6 : mem (cur + 24) = some b5) (hn : nxt ≠ 0) :
    btLoop mem dbg cur (fuel + 1) =
      match btLoop mem dbg nxt fuel with
      | some more =>
        some ([Event.btFrame cur r b1 b2 b3 b4 b5, Event.symLine r (dbg r)] ++ more)
      | none => none := by
  simp only [btLoop]
  rw [h1, h2, h3, h4, h5, h6, h0]
  simp [hn]

/-- The last step of the backtrace loop: a zero saved frame pointer stops
the walk with no further memory access. -/
theorem btLoop_zero_link (mem : Nat → Option Nat) (dbg : Nat → Eipdebuginfo)
    (cur r b1 b2 b3 b4 b5 : Nat) (fuel : Nat)
    (h0 : mem cur = some 0) (h1 : mem (cur + 4) = some r)
    (h2 : mem (cur + 8) = some b1) (h3 : mem (cur + 12) = some b2)
    (h4 : mem (cur + 16) = some b3) (h5 : mem (cur + 20) = some b4)
    (h6 : mem (cur + 24) = some b5) :
    btLoop mem dbg cur (fuel + 1) =
      some [Event.btFrame cur r b1 b2 b3 b4 b5, Event.symLine r (dbg r)] := by
  simp only [btLoop]
  rw [h1, h2, h3, h4, h5, h6, h0]
  rfl

/-- C9: on a three-frame saved-frame-pointer chain ending in a zero link,
the stack unwinder prints the banner and then exactly three frame records
— each with the frame pointer, the return address loaded at offset `+1`
word, the five words at offsets `+2` through `+6`, and the resolved symbol
line for the return address — advancing each time by the word loaded at
the current frame pointer and stopping at the zero link.  The memory is
constrained only at the three frames' cells, so no other address is
accessed. -/
theorem claim9_backtrace_three_frames (argc : Nat) (argv : Nat → Slot) (s : Sys)
    (tf : Option Trapframe)
    (f1 f2 f3 r1 a11 a12 a13 a14 a15 r2 a21 a22 a23 a24 a25 r3 a31 a32 a33 a34 a35 : Nat)
    (hebp : s.ebp = f1) (hfuel : 3 ≤ s.btFuel)
    (hl1 : s.mem f1 = some f2) (hl2 : s.mem f2 = some f3) (hl3 : s.mem f3 = some 0)
    (hn2 : f2 ≠ 0) (hn3 : f3 ≠ 0)
    (hc1 : s.mem (f1 + 4) = some r1 ∧ s.mem (f1 + 8) = some a11 ∧
      s.mem (f1 + 12) = some a12 ∧ s.mem (f1 + 16) = some a13 ∧
      s.mem (f1 + 20) = some a14 ∧ s.mem (f1 + 24) = some a15)
    (hc2 : s.mem (f2 + 4) = some r2 ∧ s.mem (f2 + 8) = some a21 ∧
      s.mem (f2 + 12) = some a22 ∧ s.mem (f2 + 16) = some a23 ∧
      s.mem (f2 + 20) = some a24 ∧ s.mem (f2 + 24) = some a25)
    (hc3 : s.mem (f3 + 4) = some r3 ∧ s.mem (f3 + 8) = some a31 ∧
      s.mem (f3 + 12) = some a32 ∧ s.mem (f3 + 16) = some a33 ∧
      s.mem (f3 + 20) = some a34 ∧ s.mem (f3 + 24) = some a35) :
    mon_backtrace argc argv s tf = .ret 0
      [Event.banner "Stack backtrace:",
       Event.btFrame f1 r1 a11 a12 a13 a14 a15, Event.symLine r1 (s.dbg r1),
       Event.btFrame f2 r2 a21 a22 a23 a24 a25, Event.symLine r2 (s.dbg r2),
       Event.btFrame f3 r3 a31 a32 a33 a34 a35, Event.symLine r3 (s.dbg r3)] s tf := by
  obtain ⟨h11, h12, h13, h14, h15, h16⟩ := hc1
  obtain ⟨h21, h22, h23, h24, h25, h26⟩ := hc2
  obtain ⟨h31, h32, h33, h34, h35, h36⟩ := hc3
  obtain ⟨m, hm⟩ : ∃ m, s.btFuel = m + 1 + 1 + 1 := ⟨s.btFuel - 3, by omega⟩
  have hbt : btLoop s.mem s.dbg f1 (m + 1 + 1 + 1) = some
      [Event.btFrame f1 r1 a11 a12 a13 a14 a15, Event.symLine r1 (s.dbg r1),
       Event.btFrame f2 r2 a21 a22 a23 a24 a25, Event.symLine r2 (s.dbg r2),
       Event.btFrame f3 r3 a31 a32 a33 a34 a35, Event.symLine r3 (s.dbg r3)] := by
    rw [btLoop_step s.mem s.dbg f1 f2 r1 a11 a12 a13 a14 a15 (m + 1 + 1)
        hl1 h11 h12 h13 h14 h15 h16 hn2,
      btLoop_step s.mem s.dbg f2 f3 r2 a21 a22 a23 a24 a25 (m + 1)
        hl2 h21 h22 h23 h24 h25 h26 hn3,
      btLoop_zero_link s.mem s.dbg f3 r3 a31 a32 a33 a34 a35 m
        hl3 h31 h32 h33 h34 h35 h36]
    rfl
  unfold mon_backtrace
  rw [hebp, hm, hbt]

/-- A three-frame chain: frames at 64, 128 and 192, the last link zero;
each frame's return address and five argument words hold ten times their
address; every other address is unreadable. -/
def chainMem : Nat → Option Nat := fun a =>
  if a = 64 then some 128
  else if a = 128 then some 192
  else if a = 192 then some 0
  else if 68 ≤ a ∧ a ≤ 88 then some (a * 10)
  else if 132 ≤ a ∧ a ≤ 152 then some (a * 10)
  else if 196 ≤ a ∧ a ≤ 216 then some (a * 10)
  else none

/-- A system paused with `ebp = 64` over the three-frame chain. -/
def s9 : Sys := ⟨pt0, chainMem, dbg0, 64, 3⟩

/-- Witness for C9: the concrete three-frame chain produces exactly three
frame records and stops. -/
theorem claim9_witness :
    mon_backtrace 0 (fun _ => Slot.unset) s9 none = .ret 0
      [Event.banner "Stack backtrace:",
       Event.btFrame 64 680 720 760 800 840 880, Event.symLine 680 (s9.dbg 680),
       Event.btFrame 128 1320 1360 1400 1440 1480 1520, Event.symLine 1320 (s9.dbg 1320),
       Event.btFrame 192 1960 2000 2040 2080 2120 2160, Event.symLine 1960 (s9.dbg 1960)]
      s9 none :=
  claim9_backtrace_three_frames 0 (fun _ => Slot.unset) s9 none
    64 128 192 680 720 760 800 840 880 1320 1360 1400 1440 1480 1520
    1960 2000 2040 2080 2120 2160 rfl (by decide) (by decide) (by decide) (by decide)
    (by decide) (by decide)
    ⟨by decide, by decide, by decide, by decide, by decide, by decide⟩
    ⟨by decide, by decide, by decide, by decide, by decide, by decide⟩
    ⟨by decide, by decide, by decide, by decide, by decide, by decide⟩

/-- A tokenized nonempty line dispatches through the linear scan of the
registry with the full argument vector. -/
theorem runcmd_dispatch (buf : String) (s : Sys) (tf : Option Trapframe)
    (a0 : String) (rest : List String) (htok : tokenize buf = some (a0 :: rest)) :
    runcmd buf s tf =
      match commands.find? (fun c => c.1 == a0) with
      | some c => c.2.2 (a0 :: rest).length (argSlot (a0 :: rest)) s tf
      | none => .ret 0 [Event.unknownCmd a0] s tf := by
  unfold runcmd
  rw [htok]

/-- C10: the `map`, `set`, `xp` and `xv` handlers read `argv[1]` and
`argv[2]` without any argument-count check: whenever the line has fewer
than three tokens, the slot at index `argc` is the argv null terminator
(and slots beyond it are uninitialized), so the handler passes a non-token
slot to the numeric parser — undefined behavior, and no handler consults
`argc` at all (each is invariant in its `argc` argument). -/
theorem claim10_no_argc_check (buf : String) (s : Sys) (tf : Option Trapframe)
    (args : List String) (a0 : String)
    (htok : tokenize buf = some args) (hhead : args.head? = some a0)
    (hname : a0 = "map" ∨ a0 = "set" ∨ a0 = "xp" ∨ a0 = "xv")
    (hlen : args.length < 3) :
    runcmd buf s tf = .ub ∧
    (parseSlot (argSlot args 1) = none ∨ parseSlot (argSlot args 2) = none) ∧
    (∀ n m, mon_map n (argSlot args) s tf = mon_map m (argSlot args) s tf ∧
      mon_set n (argSlot args) s tf = mon_set m (argSlot args) s tf ∧
      mon_xp n (argSlot args) s tf = mon_xp m (argSlot args) s tf ∧
      mon_xv n (argSlot args) s tf = mon_xv m (argSlot args) s tf) := by
  obtain ⟨rest, rfl⟩ : ∃ rest, args = a0 :: rest := by
    cases args with
    | nil => simp at hhead
    | cons x xs =>
      refine ⟨xs, ?_⟩
      have hx : x = a0 := by simpa using hhead
      rw [hx]
  have h2 : parseSlot (argSlot (a0 :: rest) 2) = none := by
    unfold argSlot
    rw [dif_neg (by omega)]
    by_cases h : 2 = (a0 :: rest).length
    · rw [if_pos h]
      rfl
    · rw [if_neg h]
      rfl
  have hmap : ∀ n, mon_map n (argSlot (a0 :: rest)) s tf = .ub := by
    intro n
    cases hp : parseSlot (argSlot (a0 :: rest) 1) <;> simp [mon_map, hp, h2]
  have hset : ∀ n, mon_set n (argSlot (a0 :: rest)) s tf = .ub := by
    intro n
    cases hp : parseSlot (argSlot (a0 :: rest) 1) <;> simp [mon_set, hp, h2]
  have hxp : ∀ n, mon_xp n (argSlot (a0 :: rest)) s tf = .ub := by
    intro n
    cases hp : parseSlot (argSlot (a0 :: rest) 1) <;> simp [mon_xp, hp, h2]
  have hxv : ∀ n, mon_xv n (argSlot (a0 :: rest)) s tf = .ub := by
    intro n
    cases hp : parseSlot (argSlot (a0 :: rest) 1) <;> simp [mon_xv, hp, h2]
  have hub : runcmd buf s tf = .ub := by
    rcases hname with rfl | rfl | rfl | rfl
    · rw [runcmd_dispatch buf s tf "map" rest htok]
      exact hmap (("map" :: rest).length)
    · rw [runcmd_dispatch buf s tf "set" rest htok]
      exact hset (("set" :: rest).length)
    · rw [runcmd_dispatch buf s tf "xp" rest htok]
      exact hxp (("xp" :: rest).length)
    · rw [runcmd_dispatch buf s tf "xv" rest htok]
      exact hxv (("xv" :: rest).length)
  exact ⟨hub, Or.inr h2, fun n m => ⟨rfl, rfl, rfl, rfl⟩⟩

/-- Witness for C10: `map` with no further token passes the argv null
terminator to `strtol`. -/
theorem claim10_witness :
    runcmd "map" s0 none = .ub ∧
    (parseSlot (argSlot ["map"] 1) = none ∨ parseSlot (argSlot ["map"] 2) = none) := by
  obtain ⟨h1, h2, _⟩ := claim10_no_argc_check "map" s0 none ["map"] "map"
    (by decide) (by decide) (Or.inl rfl) (by decide)
  exact ⟨h1, h2⟩

end Jos
